import Mathlib

/-!
Verification development for the WB_Tech_L0 order ingestion-and-lookup
pipeline.  The Go sources are shallowly embedded: each Go function that the
claims mention is translated into an executable Lean definition, stateful
code is written in explicit state-passing style, and the external
collaborators (PostgreSQL via pgx, the ristretto cache, the Kafka client)
are modelled at the granularity the pipeline observes them:

* JSON payloads are modelled as parsed JSON trees (`Json`); JSON numbers are
  modelled as integers, which covers every numeric field of the schema.
* `time.Time` is modelled at calendar-field granularity (`ISO8601Time`
  below holds year/month/day/hour/minute/second/nanosecond/UTC-offset),
  which is exactly the information an RFC3339 string carries.
* The ristretto cache is modelled as a key-value association list whose
  `Set` is a settled synchronous insert: the Go code always calls
  `cache.Wait()` directly after `cache.Set(...)`, so the model describes the
  post-settle-barrier state the spec reasons about.
* The PostgreSQL transaction of `dbService.AddOrder` is modelled by staging
  the inserted rows and applying them to the store state only on commit;
  an error at any step returns with the state unchanged, which models the
  deferred `tx.Rollback`.
-/

set_option autoImplicit false

namespace WB

/-- Calendar-field model of Go `model.ISO8601Time` (a wrapper around
`time.Time`).  `offsetMin` is the UTC offset in minutes as carried by an
RFC3339 timestamp; `nsec` is the sub-second part in nanoseconds. -/
structure ISO8601Time where
  year : Int
  month : Nat
  day : Nat
  hour : Nat
  minute : Nat
  second : Nat
  nsec : Nat
  offsetMin : Int
deriving DecidableEq, Repr

/-- Go `model.AddressDetails`. -/
structure AddressDetails where
  FullName : String
  Phone : String
  ZipCode : String
  City : String
  Street : String
  Region : String
  Email : String
deriving DecidableEq, Repr

/-- Go `model.PaymentDetails`. -/
structure PaymentDetails where
  TransactionID : String
  RequestID : String
  Currency : String
  Provider : String
  Amount : Int
  PaymentDate : Int
  Bank : String
  DeliveryCost : Int
  TotalGoods : Int
  CustomFee : Int
deriving DecidableEq, Repr

/-- Go `model.ProductItem`. -/
structure ProductItem where
  ChartID : Int
  TrackingNum : String
  Price : Int
  RID : String
  Name : String
  Discount : Int
  Size : String
  TotalPrice : Int
  ProductID : Int
  Brand : String
  Status : Int
deriving DecidableEq, Repr

/-- Go `model.OrderDetails`. -/
structure OrderDetails where
  OrderID : String
  TrackingNumber : String
  EntryPoint : String
  Address : AddressDetails
  Payment : PaymentDetails
  Products : List ProductItem
  Locale : String
  Signature : String
  CustomerID : String
  DeliveryService : String
  ShardKey : String
  SMID : Int
  CreationTimestamp : ISO8601Time
  OutOfShard : String
deriving DecidableEq, Repr

/-- Parsed JSON values.  Numbers are modelled as integers: every numeric
field of the Order schema is a Go `int`, and `encoding/json` rejects
non-integral numbers for those fields, which the model folds into the
`num` constructor. -/
inductive Json where
  | null : Json
  | bool : Bool → Json
  | num : Int → Json
  | str : String → Json
  | arr : List Json → Json
  | obj : List (String × Json) → Json
deriving Repr

/-! ### RFC3339 formatting and parsing (Go `time.Format` / `time.Parse`
with the `time.RFC3339` layout, as used by `ISO8601Time.MarshalJSON` and
`ISO8601Time.UnmarshalJSON`). -/

/-- Character for the decimal digit `n % 10`. -/
def digitChar (n : Nat) : Char := Char.ofNat (48 + n % 10)

/-- Two-digit zero-padded decimal rendering (faithful for `n < 100`). -/
def pad2 (n : Nat) : List Char := [digitChar (n / 10), digitChar n]

/-- Four-digit zero-padded decimal rendering (faithful for `n < 10000`). -/
def pad4 (n : Nat) : List Char :=
  [digitChar (n / 1000), digitChar (n / 100), digitChar (n / 10), digitChar n]

/-- Go `appendInt(year, 4)`: zero-pad to at least four digits, with a
leading minus for negative years. -/
def yearChars (y : Int) : List Char :=
  if y < 0 then '-' :: (if y.natAbs ≤ 9999 then pad4 y.natAbs else Nat.toDigits 10 y.natAbs)
  else if y.toNat ≤ 9999 then pad4 y.toNat
  else Nat.toDigits 10 y.toNat

/-- Go layout fragment `Z07:00`: the literal `Z` for offset zero, otherwise
a signed `hh:mm` offset. -/
def offsetChars (off : Int) : List Char :=
  if off = 0 then ['Z']
  else (if off < 0 then '-' else '+') :: (pad2 (off.natAbs / 60) ++ ':' :: pad2 (off.natAbs % 60))

/-- Go `time.Time.Format(time.RFC3339)`.  The RFC3339 layout carries no
fractional-second field, so `nsec` is not rendered. -/
def formatRFC3339 (t : ISO8601Time) : String :=
  String.mk (yearChars t.year ++ '-' :: pad2 t.month ++ '-' :: pad2 t.day ++
    'T' :: pad2 t.hour ++ ':' :: pad2 t.minute ++ ':' :: pad2 t.second ++
    offsetChars t.offsetMin)

/-- Value of an ASCII decimal digit, or `none`. -/
def readDigit (c : Char) : Option Nat :=
  if 48 ≤ c.toNat ∧ c.toNat ≤ 57 then some (c.toNat - 48) else none

/-- Read exactly two decimal digits. -/
def read2 : List Char → Option (Nat × List Char)
  | c1 :: c2 :: rest =>
    match readDigit c1, readDigit c2 with
    | some d1, some d2 => some (10 * d1 + d2, rest)
    | _, _ => none
  | _ => none

/-- Go `getnum(value, false)`: one decimal digit, or two when the second
character is also a digit.  The general layout parser reads the RFC3339
hour field (`"15"`, `stdHour`) this way. -/
def read1or2 : List Char → Option (Nat × List Char)
  | c1 :: rest =>
    match readDigit c1 with
    | none => none
    | some d1 =>
      match rest with
      | c2 :: rest2 =>
        match readDigit c2 with
        | some d2 => some (10 * d1 + d2, rest2)
        | none => some (d1, rest)
      | [] => some (d1, [])
  | [] => none

/-- Read exactly four decimal digits. -/
def read4 : List Char → Option (Nat × List Char)
  | c1 :: c2 :: c3 :: c4 :: rest =>
    match readDigit c1, readDigit c2, readDigit c3, readDigit c4 with
    | some d1, some d2, some d3, some d4 =>
      some (1000 * d1 + 100 * d2 + 10 * d3 + d4, rest)
    | _, _, _, _ => none
  | _ => none

/-- Consume one expected literal character. -/
def expectChar (c : Char) : List Char → Option (List Char)
  | c1 :: rest => if c1 = c then some rest else none
  | [] => none

/-- Longest prefix of decimal digits. -/
def spanDigits : List Char → List Char × List Char
  | [] => ([], [])
  | c :: rest =>
    if (readDigit c).isSome then
      let p := spanDigits rest
      (c :: p.1, p.2)
    else ([], c :: rest)

/-- Decimal value of a digit string. -/
def digitsVal (ds : List Char) : Nat :=
  ds.foldl (fun acc c => acc * 10 + (c.toNat - 48)) 0

/-- Go `parseNanoseconds`: at most nine fractional digits are significant,
scaled up to a nanosecond count. -/
def nsecOfDigits (ds : List Char) : Nat :=
  digitsVal (ds.take 9) * 10 ^ (9 - (ds.take 9).length)

/-- Go `time.Parse` accepts an unlaid-out fractional second after the
seconds field when a `.` or `,` is directly followed by a digit; otherwise
the input is left untouched. -/
def parseFrac : List Char → Nat × List Char
  | c :: d :: rest =>
    if (c = '.' ∨ c = ',') ∧ (readDigit d).isSome then
      let p := spanDigits (d :: rest)
      (nsecOfDigits p.1, p.2)
    else (0, c :: d :: rest)
  | l => (0, l)

/-- Signed `hh:mm` offset body, in minutes.  Go's general layout parser
reads the two zone fields with `getnum(..., true)` and applies **no**
range check to them (`time.Parse` accepts offsets like `+99:99`); the
strict fast path would reject them, but on its failure `Parse` falls back
to this lenient behavior. -/
def parseOffsetHM (l : List Char) : Option (Nat × List Char) :=
  match read2 l with
  | none => none
  | some (hh, l1) =>
    match expectChar ':' l1 with
    | none => none
    | some l2 =>
      match read2 l2 with
      | none => none
      | some (mm, l3) => some (hh * 60 + mm, l3)

/-- Go layout fragment `Z07:00` on the parse side. -/
def parseOffset : List Char → Option (Int × List Char)
  | 'Z' :: rest => some (0, rest)
  | '+' :: rest => (parseOffsetHM rest).map (fun p => ((p.1 : Int), p.2))
  | '-' :: rest => (parseOffsetHM rest).map (fun p => (-(p.1 : Int), p.2))
  | _ => none

/-- Go leap-year rule (`time.isLeap`). -/
def isLeapYear (y : Int) : Bool :=
  y % 4 == 0 && (y % 100 != 0 || y % 400 == 0)

/-- Go `daysIn(month, year)`. -/
def daysInMonth (y : Int) (m : Nat) : Nat :=
  if m = 2 then (if isLeapYear y then 29 else 28)
  else if m = 4 ∨ m = 6 ∨ m = 9 ∨ m = 11 then 30
  else 31

/-- Go `time.Parse(time.RFC3339, s)` over the character list of `s`.
`Parse` tries a strict fast path and, when it fails, falls back to the
general layout parser, so the accepted language is the general parser's:
a four-digit year, literal separators, fixed two-digit month/day/minute/
second, an hour of one or two digits (`getnum(value, false)`), Go's range
checks on the clock fields (month 1–12, day bounded by the month length,
hour ≤ 23, minute/second ≤ 59), an optional fractional second, a `Z` or
`±hh:mm` offset whose fields are not range-checked, and no trailing
input. -/
def parseRFC3339List (l : List Char) : Option ISO8601Time := do
  let (y, l) ← read4 l
  let l ← expectChar '-' l
  let (mo, l) ← read2 l
  let l ← expectChar '-' l
  let (d, l) ← read2 l
  let l ← expectChar 'T' l
  let (h, l) ← read1or2 l
  let l ← expectChar ':' l
  let (mi, l) ← read2 l
  let l ← expectChar ':' l
  let (s, l) ← read2 l
  let fr := parseFrac l
  let (off, l) ← parseOffset fr.2
  if l = [] ∧ 1 ≤ mo ∧ mo ≤ 12 ∧ 1 ≤ d ∧ d ≤ daysInMonth (Int.ofNat y) mo ∧
      h ≤ 23 ∧ mi ≤ 59 ∧ s ≤ 59 then
    some ⟨Int.ofNat y, mo, d, h, mi, s, fr.1, off⟩
  else none

/-- Go `time.Parse(time.RFC3339, s)`. -/
def parseRFC3339 (s : String) : Option ISO8601Time :=
  parseRFC3339List s.data

/-! ### JSON decoding into the Order schema (Go `encoding/json`).

`decodeOrderDetails true` models `model.ParseOrder`'s decoder, which sets
`DisallowUnknownFields()`; `decodeOrderDetails false` models the plain
`json.Unmarshal` used by `kafkaService.decodeOrder`.  Per `encoding/json`
semantics a JSON `null` leaves the target field unchanged, object entries
are applied in payload order (a later duplicate key overwrites), and a
value of the wrong kind is a decode error. -/

/-- Zero value of Go `time.Time` (January 1, year 1, 00:00:00 UTC). -/
def zeroISO8601Time : ISO8601Time := ⟨1, 1, 1, 0, 0, 0, 0, 0⟩

/-- Zero value of Go `model.AddressDetails`. -/
def zeroAddress : AddressDetails := ⟨"", "", "", "", "", "", ""⟩

/-- Zero value of Go `model.PaymentDetails`. -/
def zeroPayment : PaymentDetails := ⟨"", "", "", "", 0, 0, "", 0, 0, 0⟩

/-- Zero value of Go `model.ProductItem`. -/
def zeroItem : ProductItem := ⟨0, "", 0, "", "", 0, "", 0, 0, "", 0⟩

/-- Zero value of Go `model.OrderDetails`. -/
def zeroOrder : OrderDetails :=
  ⟨"", "", "", zeroAddress, zeroPayment, [], "", "", "", "", "", 0, zeroISO8601Time, ""⟩

/-- Decode a JSON value into a Go `string` field. -/
def decodeStringField (v : Json) (cur : String) : Except String String :=
  match v with
  | .str s => .ok s
  | .null => .ok cur
  | _ => .error "json: cannot unmarshal value into Go value of type string"

/-- Decode a JSON value into a Go `int` field. -/
def decodeIntField (v : Json) (cur : Int) : Except String Int :=
  match v with
  | .num n => .ok n
  | .null => .ok cur
  | _ => .error "json: cannot unmarshal value into Go value of type int"

/-- Go `ISO8601Time.UnmarshalJSON`: trim the quotes of the raw value and
run `time.Parse(time.RFC3339, ...)`; every non-string value (including
`null`) yields raw bytes that fail the parse. -/
def ISO8601Time.unmarshal (v : Json) : Except String ISO8601Time :=
  match v with
  | .str s =>
    match parseRFC3339 s with
    | some t => .ok t
    | none => .error ("invalid time format: " ++ s)
  | _ => .error "invalid time format"

/-- One `AddressDetails` object entry, keyed by the struct's json tags. -/
def decodeAddressEntry (strict : Bool) (k : String) (v : Json) (cur : AddressDetails) :
    Except String AddressDetails :=
  if k = "name" then (decodeStringField v cur.FullName).map (fun s => { cur with FullName := s })
  else if k = "phone" then (decodeStringField v cur.Phone).map (fun s => { cur with Phone := s })
  else if k = "zip" then (decodeStringField v cur.ZipCode).map (fun s => { cur with ZipCode := s })
  else if k = "city" then (decodeStringField v cur.City).map (fun s => { cur with City := s })
  else if k = "address" then (decodeStringField v cur.Street).map (fun s => { cur with Street := s })
  else if k = "region" then (decodeStringField v cur.Region).map (fun s => { cur with Region := s })
  else if k = "email" then (decodeStringField v cur.Email).map (fun s => { cur with Email := s })
  else if strict then .error ("json: unknown field " ++ k)
  else .ok cur

/-- Fold of `decodeAddressEntry` over an object's entries. -/
def decodeAddressObj (strict : Bool) : List (String × Json) → AddressDetails →
    Except String AddressDetails
  | [], cur => .ok cur
  | (k, v) :: rest, cur =>
    match decodeAddressEntry strict k v cur with
    | .error e => .error e
    | .ok cur1 => decodeAddressObj strict rest cur1

/-- Decode a JSON value into an `AddressDetails` field. -/
def decodeAddressField (strict : Bool) (v : Json) (cur : AddressDetails) :
    Except String AddressDetails :=
  match v with
  | .obj entries => decodeAddressObj strict entries cur
  | .null => .ok cur
  | _ => .error "json: cannot unmarshal value into Go value of type model.AddressDetails"

/-- One `PaymentDetails` object entry, keyed by the struct's json tags. -/
def decodePaymentEntry (strict : Bool) (k : String) (v : Json) (cur : PaymentDetails) :
    Except String PaymentDetails :=
  if k = "transaction" then (decodeStringField v cur.TransactionID).map (fun s => { cur with TransactionID := s })
  else if k = "request_id" then (decodeStringField v cur.RequestID).map (fun s => { cur with RequestID := s })
  else if k = "currency" then (decodeStringField v cur.Currency).map (fun s => { cur with Currency := s })
  else if k = "provider" then (decodeStringField v cur.Provider).map (fun s => { cur with Provider := s })
  else if k = "amount" then (decodeIntField v cur.Amount).map (fun n => { cur with Amount := n })
  else if k = "payment_dt" then (decodeIntField v cur.PaymentDate).map (fun n => { cur with PaymentDate := n })
  else if k = "bank" then (decodeStringField v cur.Bank).map (fun s => { cur with Bank := s })
  else if k = "delivery_cost" then (decodeIntField v cur.DeliveryCost).map (fun n => { cur with DeliveryCost := n })
  else if k = "goods_total" then (decodeIntField v cur.TotalGoods).map (fun n => { cur with TotalGoods := n })
  else if k = "custom_fee" then (decodeIntField v cur.CustomFee).map (fun n => { cur with CustomFee := n })
  else if strict then .error ("json: unknown field " ++ k)
  else .ok cur

/-- Fold of `decodePaymentEntry` over an object's entries. -/
def decodePaymentObj (strict : Bool) : List (String × Json) → PaymentDetails →
    Except String PaymentDetails
  | [], cur => .ok cur
  | (k, v) :: rest, cur =>
    match decodePaymentEntry strict k v cur with
    | .error e => .error e
    | .ok cur1 => decodePaymentObj strict rest cur1

/-- Decode a JSON value into a `PaymentDetails` field. -/
def decodePaymentField (strict : Bool) (v : Json) (cur : PaymentDetails) :
    Except String PaymentDetails :=
  match v with
  | .obj entries => decodePaymentObj strict entries cur
  | .null => .ok cur
  | _ => .error "json: cannot unmarshal value into Go value of type model.PaymentDetails"

/-- One `ProductItem` object entry, keyed by the struct's json tags. -/
def decodeItemEntry (strict : Bool) (k : String) (v : Json) (cur : ProductItem) :
    Except String ProductItem :=
  if k = "chrt_id" then (decodeIntField v cur.ChartID).map (fun n => { cur with ChartID := n })
  else if k = "track_number" then (decodeStringField v cur.TrackingNum).map (fun s => { cur with TrackingNum := s })
  else if k = "price" then (decodeIntField v cur.Price).map (fun n => { cur with Price := n })
  else if k = "rid" then (decodeStringField v cur.RID).map (fun s => { cur with RID := s })
  else if k = "name" then (decodeStringField v cur.Name).map (fun s => { cur with Name := s })
  else if k = "sale" then (decodeIntField v cur.Discount).map (fun n => { cur with Discount := n })
  else if k = "size" then (decodeStringField v cur.Size).map (fun s => { cur with Size := s })
  else if k = "total_price" then (decodeIntField v cur.TotalPrice).map (fun n => { cur with TotalPrice := n })
  else if k = "nm_id" then (decodeIntField v cur.ProductID).map (fun n => { cur with ProductID := n })
  else if k = "brand" then (decodeStringField v cur.Brand).map (fun s => { cur with Brand := s })
  else if k = "status" then (decodeIntField v cur.Status).map (fun n => { cur with Status := n })
  else if strict then .error ("json: unknown field " ++ k)
  else .ok cur

/-- Fold of `decodeItemEntry` over an object's entries. -/
def decodeItemObj (strict : Bool) : List (String × Json) → ProductItem →
    Except String ProductItem
  | [], cur => .ok cur
  | (k, v) :: rest, cur =>
    match decodeItemEntry strict k v cur with
    | .error e => .error e
    | .ok cur1 => decodeItemObj strict rest cur1

/-- Decode one array element into a `ProductItem` (starting from the zero
struct, as `encoding/json` does for a freshly grown slice element). -/
def decodeItemElem (strict : Bool) (v : Json) : Except String ProductItem :=
  match v with
  | .obj entries => decodeItemObj strict entries zeroItem
  | .null => .ok zeroItem
  | _ => .error "json: cannot unmarshal value into Go value of type model.ProductItem"

/-- Decode a JSON array into a `[]ProductItem`. -/
def decodeItemList (strict : Bool) : List Json → Except String (List ProductItem)
  | [] => .ok []
  | v :: rest =>
    match decodeItemElem strict v with
    | .error e => .error e
    | .ok it =>
      match decodeItemList strict rest with
      | .error e => .error e
      | .ok its => .ok (it :: its)

/-- Decode a JSON value into the `items` slice field. -/
def decodeItemsField (strict : Bool) (v : Json) (cur : List ProductItem) :
    Except String (List ProductItem) :=
  match v with
  | .arr xs => decodeItemList strict xs
  | .null => .ok cur
  | _ => .error "json: cannot unmarshal value into Go value of type []model.ProductItem"

/-- One top-level `OrderDetails` object entry, keyed by the struct's json
tags.  Under `strict` (the `DisallowUnknownFields` decoder of
`model.ParseOrder`) an unknown key is a hard error; otherwise it is
ignored, as in the plain `json.Unmarshal` of `kafkaService.decodeOrder`. -/
def decodeOrderEntry (strict : Bool) (k : String) (v : Json) (cur : OrderDetails) :
    Except String OrderDetails :=
  if k = "order_uid" then (decodeStringField v cur.OrderID).map (fun s => { cur with OrderID := s })
  else if k = "track_number" then (decodeStringField v cur.TrackingNumber).map (fun s => { cur with TrackingNumber := s })
  else if k = "entry" then (decodeStringField v cur.EntryPoint).map (fun s => { cur with EntryPoint := s })
  else if k = "delivery" then (decodeAddressField strict v cur.Address).map (fun a => { cur with Address := a })
  else if k = "payment" then (decodePaymentField strict v cur.Payment).map (fun p => { cur with Payment := p })
  else if k = "items" then (decodeItemsField strict v cur.Products).map (fun xs => { cur with Products := xs })
  else if k = "locale" then (decodeStringField v cur.Locale).map (fun s => { cur with Locale := s })
  else if k = "internal_signature" then (decodeStringField v cur.Signature).map (fun s => { cur with Signature := s })
  else if k = "customer_id" then (decodeStringField v cur.CustomerID).map (fun s => { cur with CustomerID := s })
  else if k = "delivery_service" then (decodeStringField v cur.DeliveryService).map (fun s => { cur with DeliveryService := s })
  else if k = "shardkey" then (decodeStringField v cur.ShardKey).map (fun s => { cur with ShardKey := s })
  else if k = "sm_id" then (decodeIntField v cur.SMID).map (fun n => { cur with SMID := n })
  else if k = "date_created" then (ISO8601Time.unmarshal v).map (fun t => { cur with CreationTimestamp := t })
  else if k = "oof_shard" then (decodeStringField v cur.OutOfShard).map (fun s => { cur with OutOfShard := s })
  else if strict then .error ("json: unknown field " ++ k)
  else .ok cur

/-- Fold of `decodeOrderEntry` over the top-level object's entries. -/
def decodeOrderObj (strict : Bool) : List (String × Json) → OrderDetails →
    Except String OrderDetails
  | [], cur => .ok cur
  | (k, v) :: rest, cur =>
    match decodeOrderEntry strict k v cur with
    | .error e => .error e
    | .ok cur1 => decodeOrderObj strict rest cur1

/-- Decode a JSON value into an `OrderDetails` (`json.Unmarshal` /
`Decoder.Decode` into `&order`). -/
def decodeOrderDetails (strict : Bool) (j : Json) : Except String OrderDetails :=
  match j with
  | .obj entries => decodeOrderObj strict entries zeroOrder
  | .null => .ok zeroOrder
  | _ => .error "json: cannot unmarshal value into Go value of type model.OrderDetails"

/-- Go `model.ParseOrder(data, maxItems)`: a strict decode (unknown fields
are rejected), then the item-count ceiling. -/
def ParseOrder (j : Json) (maxItems : Nat) : Except String OrderDetails :=
  match decodeOrderDetails true j with
  | .error e => .error ("invalid JSON structure: " ++ e)
  | .ok order =>
    if order.Products.length > maxItems then .error "too many products in the order"
    else .ok order

/-! ### JSON marshalling (Go `json.Marshal` over the schema's struct
tags, emitting fields in declaration order). -/

/-- Marshal `AddressDetails`. -/
def marshalAddress (a : AddressDetails) : Json :=
  .obj [("name", .str a.FullName), ("phone", .str a.Phone), ("zip", .str a.ZipCode),
    ("city", .str a.City), ("address", .str a.Street), ("region", .str a.Region),
    ("email", .str a.Email)]

/-- Marshal `PaymentDetails`. -/
def marshalPayment (p : PaymentDetails) : Json :=
  .obj [("transaction", .str p.TransactionID), ("request_id", .str p.RequestID),
    ("currency", .str p.Currency), ("provider", .str p.Provider),
    ("amount", .num p.Amount), ("payment_dt", .num p.PaymentDate),
    ("bank", .str p.Bank), ("delivery_cost", .num p.DeliveryCost),
    ("goods_total", .num p.TotalGoods), ("custom_fee", .num p.CustomFee)]

/-- Marshal one `ProductItem`. -/
def marshalItem (it : ProductItem) : Json :=
  .obj [("chrt_id", .num it.ChartID), ("track_number", .str it.TrackingNum),
    ("price", .num it.Price), ("rid", .str it.RID), ("name", .str it.Name),
    ("sale", .num it.Discount), ("size", .str it.Size),
    ("total_price", .num it.TotalPrice), ("nm_id", .num it.ProductID),
    ("brand", .str it.Brand), ("status", .num it.Status)]

/-- Go `json.Marshal(order)`, with `ISO8601Time.MarshalJSON` rendering the
creation timestamp through `time.RFC3339`. -/
def marshalOrder (o : OrderDetails) : Json :=
  .obj [("order_uid", .str o.OrderID), ("track_number", .str o.TrackingNumber),
    ("entry", .str o.EntryPoint), ("delivery", marshalAddress o.Address),
    ("payment", marshalPayment o.Payment),
    ("items", .arr (o.Products.map marshalItem)), ("locale", .str o.Locale),
    ("internal_signature", .str o.Signature), ("customer_id", .str o.CustomerID),
    ("delivery_service", .str o.DeliveryService), ("shardkey", .str o.ShardKey),
    ("sm_id", .num o.SMID),
    ("date_created", .str (formatRFC3339 o.CreationTimestamp)),
    ("oof_shard", .str o.OutOfShard)]

/-! ### Cache layer (`caching/cache.go`).

The ristretto cache is modelled as an association list: `cache.Set` is a
settled insert (the Go code calls `cache.Wait()` right after every `Set`),
`cache.Get` is a lookup.  The `DBService` the cache service talks to is an
abstract store given by its three methods; `CacheState` additionally counts
the store calls the service issues, so that "without consulting the store"
is an observable fact of the model. -/

/-- Store-side errors as seen through the `DBService` interface: a
missing-row result or any other store error. -/
inductive DBError where
  | notFound : DBError
  | storeError : String → DBError
deriving DecidableEq, Repr

/-- Abstract `caching.DBService`: the durable store as the capability
interface the cache layer depends on. -/
structure DBService where
  AddOrder : OrderDetails → Except DBError Unit
  GetOrder : String → Except DBError OrderDetails
  GetRecentOrderIDs : Nat → Except DBError (List String)

/-- Settled ristretto `Set` followed by `Wait`: the key maps to the value
for every subsequent read. -/
def cacheSet (key : String) (v : OrderDetails) (c : List (String × OrderDetails)) :
    List (String × OrderDetails) :=
  (key, v) :: c.filter (fun kv => kv.1 ≠ key)

/-- Ristretto `Get`. -/
def cacheGet (key : String) (c : List (String × OrderDetails)) : Option OrderDetails :=
  (c.find? (fun kv => kv.1 = key)).map (fun kv => kv.2)

/-- State of a `cacheService`: the settled cache contents plus counters of
the store calls issued so far (the model's observation of "store
interaction"). -/
structure CacheState where
  cache : List (String × OrderDetails)
  dbGetCalls : Nat
  dbAddCalls : Nat
deriving DecidableEq, Repr

/-- Fresh `cacheService` state before warm-up. -/
def initialCacheState : CacheState := ⟨[], 0, 0⟩

/-- Go `cacheService.AddOrder`: admit into the cache (`Set` + `Wait`),
then persist through the store; the store's error, if any, is returned
unchanged and the cache admission is not rolled back. -/
def cacheService.AddOrder (db : DBService) (s : CacheState) (order : OrderDetails) :
    Except DBError Unit × CacheState :=
  let s1 : CacheState :=
    { s with cache := cacheSet order.OrderID order s.cache, dbAddCalls := s.dbAddCalls + 1 }
  match db.AddOrder order with
  | .error e => (.error e, s1)
  | .ok _ => (.ok (), s1)

/-- Go `cacheService.getFromCache` (the failed type-assertion branch is
unrepresentable in the typed model). -/
def cacheService.getFromCache (s : CacheState) (orderUID : String) : Option OrderDetails :=
  cacheGet orderUID s.cache

/-- Go `cacheService.GetOrder`: cached copy on a hit; otherwise fetch from
the store, propagate its error unchanged on failure, or populate the cache
(`addToCache`) and return the fetched order. -/
def cacheService.GetOrder (db : DBService) (s : CacheState) (orderUID : String) :
    Except DBError OrderDetails × CacheState :=
  match cacheService.getFromCache s orderUID with
  | some order => (.ok order, s)
  | none =>
    match db.GetOrder orderUID with
    | .error e => (.error e, { s with dbGetCalls := s.dbGetCalls + 1 })
    | .ok order =>
      (.ok order,
        { s with dbGetCalls := s.dbGetCalls + 1, cache := cacheSet orderUID order s.cache })

/-- One warm-up goroutine of `cacheService.loadCache`: fetch the order by
id; a failure is logged and skipped, a success is admitted to the cache
(`Set` + `Wait`). -/
def cacheService.loadCacheStep (db : DBService) (s : CacheState) (id : String) : CacheState :=
  match db.GetOrder id with
  | .error _ => { s with dbGetCalls := s.dbGetCalls + 1 }
  | .ok order =>
    { s with dbGetCalls := s.dbGetCalls + 1, cache := cacheSet id order s.cache }

/-- Go `cacheService.loadCache`: fetch the `maxSize` most recent order
ids (fatal on failure), then fetch and admit each order; the `WaitGroup`
barrier makes the concurrent admissions equivalent to this sequential fold
over the id list, complete before the function returns. -/
def cacheService.loadCache (db : DBService) (maxSize : Nat) (s : CacheState) :
    Except DBError CacheState :=
  match db.GetRecentOrderIDs maxSize with
  | .error e => .error e
  | .ok ids => .ok (ids.foldl (cacheService.loadCacheStep db) s)

/-- Go `NewCacheService`: construct the (empty) ristretto cache and run
`loadCache`; a warm-up id-list failure fails construction. -/
def NewCacheService (db : DBService) (cacheSize : Nat) : Except DBError CacheState :=
  cacheService.loadCache db cacheSize initialCacheState

/-! ### Durable store (`data_base/data_base.go`).

`dbService.AddOrder` runs four kinds of inserts inside one pgx transaction
and commits last.  The model stages the rows and applies them to the store
state only on a successful commit; any earlier error returns with the
state unchanged, which is the deferred `tx.Rollback`.  Which steps fail is
an oracle (`PgFailures`), standing for the possible I/O and constraint
errors of the real database. -/

/-- The `orders` table row produced by the header insert. -/
structure OrderRow where
  order_uid : String
  track_number : String
  entry : String
  delivery_id : Nat
  payment_id : String
  locale : String
  internal_signature : String
  customer_id : String
  delivery_service : String
  shardkey : String
  sm_id : Int
  date_created : ISO8601Time
  oof_shard : String
deriving DecidableEq, Repr

/-- Relational store state: the four tables touched by `AddOrder`.
Delivery rows carry their serial id. -/
structure PgState where
  delivery : List (Nat × AddressDetails)
  payment : List PaymentDetails
  orders : List OrderRow
  items : List ProductItem
deriving DecidableEq, Repr

/-- Steps of `dbService.AddOrder` that can fail. -/
inductive PgErr where
  | beginErr : PgErr
  | deliveryErr : PgErr
  | paymentErr : PgErr
  | orderErr : PgErr
  | itemErr : Nat → PgErr
  | commitErr : PgErr
deriving DecidableEq, Repr

/-- Failure oracle for one `dbService.AddOrder` call: which of the
transaction's steps error out. -/
structure PgFailures where
  failBegin : Bool
  failDelivery : Bool
  failPayment : Bool
  failOrder : Bool
  failItem : Nat → Bool
  failCommit : Bool

/-- Stage the per-item inserts in order; the first failing item insert
aborts the transaction. -/
def stageItems (f : PgFailures) : Nat → List ProductItem → Except PgErr (List ProductItem)
  | _, [] => .ok []
  | idx, it :: rest =>
    if f.failItem idx then .error (.itemErr idx)
    else (stageItems f (idx + 1) rest).map (fun its => it :: its)

/-- The `orders` row built by the header insert of `dbService.AddOrder`
(the foreign keys are the returned delivery id and the payment
transaction id). -/
def mkOrderRow (deliveryID : Nat) (order : OrderDetails) : OrderRow :=
  ⟨order.OrderID, order.TrackingNumber, order.EntryPoint, deliveryID,
    order.Payment.TransactionID, order.Locale, order.Signature, order.CustomerID,
    order.DeliveryService, order.ShardKey, order.SMID, order.CreationTimestamp,
    order.OutOfShard⟩

/-- Store state after the commit of one successful `AddOrder`
transaction: all four row groups appended. -/
def commitOrder (st : PgState) (order : OrderDetails) : PgState :=
  { delivery := st.delivery ++ [(st.delivery.length, order.Address)],
    payment := st.payment ++ [order.Payment],
    orders := st.orders ++ [mkOrderRow st.delivery.length order],
    items := st.items ++ order.Products }

/-- Go `dbService.AddOrder`: `Begin`, the delivery insert (returning the
serial id), the payment insert, the order-header insert, one insert per
item, then `Commit`; every error path returns through the deferred
rollback with the store state unchanged. -/
def dbService.AddOrder (f : PgFailures) (st : PgState) (order : OrderDetails) :
    Except PgErr Unit × PgState :=
  if f.failBegin then (.error .beginErr, st)
  else if f.failDelivery then (.error .deliveryErr, st)
  else if f.failPayment then (.error .paymentErr, st)
  else if f.failOrder then (.error .orderErr, st)
  else
    match stageItems f 0 order.Products with
    | .error e => (.error e, st)
    | .ok _ =>
      if f.failCommit then (.error .commitErr, st)
      else (.ok (), commitOrder st order)

/-! ### HTTP transport (`transport/transport.go`). -/

/-- Response of `httpTransport.orderHandler`: the status code and, on the
success path, the JSON-encoded order. -/
structure HttpResponse where
  status : Nat
  body : Option Json

/-- Go `httpTransport.orderHandler`: non-GET methods get 405, a missing
or empty `order_uid` query parameter gets 400 (`r.URL.Query().Get`
returns the empty string when the parameter is absent), any store error
gets 500, and a found order is written as JSON with status 200. -/
def httpTransport.orderHandler (store : String → Except DBError OrderDetails)
    (method : String) (orderUID : String) : HttpResponse :=
  if method ≠ "GET" then ⟨405, none⟩
  else if orderUID = "" then ⟨400, none⟩
  else
    match store orderUID with
    | .error _ => ⟨500, none⟩
    | .ok order => ⟨200, some (marshalOrder order)⟩

/-! ### Stream consumer (`kafka/kafka.go`). -/

/-- Go `kafkaService.decodeOrder`: a plain `json.Unmarshal` — unknown
fields are ignored and no item-count ceiling is applied. -/
def kafkaService.decodeOrder (data : Json) : Except String OrderDetails :=
  match decodeOrderDetails false data with
  | .error _ => .error "invalid order format in Kafka message"
  | .ok order => .ok order

/-- One iteration of the `kafkaService.StartListening` loop body for a
received message, with the store wired to the cache service as in
`main.go`: a decode failure drops the message (no store interaction), a
successful decode calls `store.AddOrder`, whose own failure is also only
logged. -/
def kafkaService.consumeStep (db : DBService) (s : CacheState) (msg : Json) : CacheState :=
  match kafkaService.decodeOrder msg with
  | .error _ => s
  | .ok order => (cacheService.AddOrder db s order).2

/-! ### Auxiliary definitions for the claims. -/

/-- Timestamps in the range `time.Format(time.RFC3339)` renders faithfully:
a four-digit year, calendar-consistent fields, and an offset below a day.
`nsec` is unconstrained (the layout simply does not render it). -/
def ISO8601Time.wellFormed (t : ISO8601Time) : Prop :=
  0 ≤ t.year ∧ t.year ≤ 9999 ∧ 1 ≤ t.month ∧ t.month ≤ 12 ∧ 1 ≤ t.day ∧
  t.day ≤ daysInMonth t.year t.month ∧ t.hour ≤ 23 ∧ t.minute ≤ 59 ∧
  t.second ≤ 59 ∧ t.offsetMin.natAbs ≤ 1439

instance (t : ISO8601Time) : Decidable t.wellFormed := by
  unfold ISO8601Time.wellFormed; infer_instance

instance {ε α : Type} [DecidableEq ε] [DecidableEq α] : DecidableEq (Except ε α) :=
  fun a b =>
    match a, b with
    | .error e1, .error e2 =>
      if h : e1 = e2 then isTrue (by rw [h]) else isFalse (fun hh => h (by cases hh; rfl))
    | .error _, .ok _ => isFalse (fun hh => Except.noConfusion hh)
    | .ok _, .error _ => isFalse (fun hh => Except.noConfusion hh)
    | .ok a1, .ok a2 =>
      if h : a1 = a2 then isTrue (by rw [h]) else isFalse (fun hh => h (by cases hh; rfl))

/-- The repository's canonical test item (`chrt_id = 9934930`,
`price = 453`). -/
def sampleItem : ProductItem :=
  ⟨9934930, "WBILMTESTTRACK", 453, "ab4219087a764ae0btest", "Mascaras", 30, "0",
    317, 2389212, "Vivienne Sabo", 202⟩

/-- A whole-second UTC creation timestamp. -/
def sampleTime : ISO8601Time := ⟨2021, 11, 26, 6, 22, 19, 0, 0⟩

/-- The repository's canonical test order `b563feb7b2b84b6test`. -/
def sampleOrder : OrderDetails :=
  ⟨"b563feb7b2b84b6test", "WBILMTESTTRACK", "WBIL",
    ⟨"Test Testov", "+9720000000", "2639809", "Kiryat Mozkin", "Ploshad Mira 15",
      "Kraiot", "test@gmail.com"⟩,
    ⟨"b563feb7b2b84b6test", "", "USD", "wbpay", 1817, 1637907727, "alpha", 1500,
      317, 0⟩,
    [sampleItem], "en", "", "test", "meest", "9", 99, sampleTime, "1"⟩

/-- A store whose writes succeed and whose reads miss. -/
def okDB : DBService :=
  ⟨fun _ => .ok (), fun _ => .error .notFound, fun _ => .ok []⟩

/-- A store whose every access errors. -/
def failDB : DBService :=
  ⟨fun _ => .error (.storeError "connection refused"),
   fun _ => .error (.storeError "connection refused"),
   fun _ => .error (.storeError "connection refused")⟩

/-- A store holding exactly `sampleOrder`. -/
def memDB : DBService :=
  ⟨fun _ => .ok (),
   fun uid => if uid = sampleOrder.OrderID then .ok sampleOrder else .error .notFound,
   fun limit => .ok (if limit = 0 then [] else [sampleOrder.OrderID])⟩

/-- The sample order carrying two items (one more than a configured
ceiling of one). -/
def oversizedOrder : OrderDetails := { sampleOrder with Products := [sampleItem, sampleItem] }

/-- The JSON payload of `oversizedOrder` as published on the stream. -/
def oversizedPayload : Json := marshalOrder oversizedOrder

/-- The sample order with a fractional-second creation timestamp (as
`NewFakeOrder` produces via `time.Now()`). -/
def fracOrder : OrderDetails :=
  { sampleOrder with CreationTimestamp := ⟨2021, 11, 26, 6, 22, 19, 500000000, 0⟩ }

/-- A well-formed payload with no `order_uid` field at all. -/
def emptyUIDPayload : Json := .obj [("entry", .str "WBIL")]

/-- The order `emptyUIDPayload` decodes to: the zero order with only the
entry point set, and in particular an empty identifier. -/
def emptyUIDOrder : OrderDetails := { zeroOrder with EntryPoint := "WBIL" }

/-- A query-surface store (the cache service behind the HTTP handler)
whose lookup reports a missing row. -/
def notFoundStore : String → Except DBError OrderDetails := fun _ => .error .notFound

/-- A query-surface store holding exactly `sampleOrder`. -/
def sampleStore : String → Except DBError OrderDetails := fun uid =>
  if uid = sampleOrder.OrderID then .ok sampleOrder else .error .notFound

/-! ## Cache-structure lemmas -/

theorem cacheGet_set_self (k : String) (v : OrderDetails)
    (c : List (String × OrderDetails)) : cacheGet k (cacheSet k v c) = some v := by
  unfold cacheGet cacheSet
  rw [List.find?_cons_of_pos _ (by simp)]
  rfl

theorem cacheGet_set_ne (k k' : String) (v : OrderDetails)
    (c : List (String × OrderDetails)) (h : k' ≠ k) :
    cacheGet k' (cacheSet k v c) = cacheGet k' c := by
  unfold cacheGet cacheSet
  rw [List.find?_cons_of_neg _ (by simp; exact fun hh => h hh.symm),
    List.find?_filter]
  have hpred : (fun (a : String × OrderDetails) =>
      decide (decide (a.1 ≠ k) = true ∧ decide (a.1 = k') = true)) =
      (fun (a : String × OrderDetails) => decide (a.1 = k')) := by
    funext a
    by_cases ha : a.1 = k'
    · have hak : ¬(a.1 = k) := by rw [ha]; exact h
      simp [ha, hak, h]
    · simp [ha]
  rw [hpred]

theorem addOrder_state (db : DBService) (s : CacheState) (o : OrderDetails) :
    (cacheService.AddOrder db s o).2 =
      { s with cache := cacheSet o.OrderID o s.cache, dbAddCalls := s.dbAddCalls + 1 } := by
  unfold cacheService.AddOrder
  cases db.AddOrder o <;> rfl

/-! ## C1 — cache-path read-after-write -/

/-- C1: for every valid order `o` and any store behavior, once
`cacheService.AddOrder o` has returned successfully, `GetOrder o.OrderID`
returns exactly `o` and leaves the service state untouched — in
particular `dbGetCalls` is unchanged, so the read involves no store
interaction (post-settle-barrier read-after-write). -/
theorem cacheService.addOrder_getOrder_roundtrip (db : DBService) (s : CacheState)
    (o : OrderDetails) (h : (cacheService.AddOrder db s o).1 = .ok ()) :
    cacheService.GetOrder db (cacheService.AddOrder db s o).2 o.OrderID =
      (.ok o, (cacheService.AddOrder db s o).2) := by
  rw [addOrder_state]
  unfold cacheService.GetOrder cacheService.getFromCache
  simp [cacheGet_set_self]

/-- C1 witness: the round trip evaluated on the canonical sample order
against a store that accepts the write. -/
theorem cacheService.addOrder_getOrder_roundtrip_witness :
    cacheService.GetOrder okDB (cacheService.AddOrder okDB initialCacheState sampleOrder).2
        sampleOrder.OrderID =
      (.ok sampleOrder, (cacheService.AddOrder okDB initialCacheState sampleOrder).2) :=
  cacheService.addOrder_getOrder_roundtrip okDB initialCacheState sampleOrder rfl

/-! ## C2 — write-through without rollback -/

/-- C2: `cacheService.AddOrder` admits the order into the cache before
persisting it; it returns success exactly when the store write succeeds;
when the store write fails the store's error is returned unchanged; and in
every case — the failed one included — the cache still holds the admitted
entry (no rollback). -/
theorem cacheService.addOrder_spec (db : DBService) (s : CacheState) (o : OrderDetails) :
    ((cacheService.AddOrder db s o).1 = .ok () ↔ db.AddOrder o = .ok ()) ∧
    cacheGet o.OrderID (cacheService.AddOrder db s o).2.cache = some o ∧
    (∀ e, db.AddOrder o = .error e → (cacheService.AddOrder db s o).1 = .error e) := by
  refine ⟨?_, ?_, ?_⟩
  · unfold cacheService.AddOrder
    cases h : db.AddOrder o with
    | error e => simp [h]
    | ok u => cases u; simp [h]
  · rw [addOrder_state]
    exact cacheGet_set_self o.OrderID o s.cache
  · intro e he
    unfold cacheService.AddOrder
    simp [he]

/-- C2 witness: against a store whose write fails, `AddOrder` returns the
store's error unchanged while the cache keeps the admitted entry. -/
theorem cacheService.addOrder_spec_witness :
    (cacheService.AddOrder failDB initialCacheState sampleOrder).1 =
      .error (.storeError "connection refused") ∧
    cacheGet sampleOrder.OrderID
        (cacheService.AddOrder failDB initialCacheState sampleOrder).2.cache =
      some sampleOrder :=
  ⟨(cacheService.addOrder_spec failDB initialCacheState sampleOrder).2.2
      (.storeError "connection refused") rfl,
   (cacheService.addOrder_spec failDB initialCacheState sampleOrder).2.1⟩

/-! ## C3 — cache-aside read path -/

/-- C3: `cacheService.GetOrder` returns the cached copy on a hit without
touching the store or the state; on a miss it fetches from the store, and
either populates the cache with the fetched order and returns it, or — when
the store fails, with `notFound` or any other store error — returns the
store's error unchanged and leaves the cache unpopulated for that key. -/
theorem cacheService.getOrder_spec (db : DBService) (s : CacheState) (uid : String) :
    (∀ o, cacheService.getFromCache s uid = some o →
      cacheService.GetOrder db s uid = (.ok o, s)) ∧
    (cacheService.getFromCache s uid = none →
      (∀ o, db.GetOrder uid = .ok o →
        cacheService.GetOrder db s uid =
          (.ok o, { s with
                    dbGetCalls := s.dbGetCalls + 1
                    cache := cacheSet uid o s.cache })) ∧
      (∀ e, db.GetOrder uid = .error e →
        cacheService.GetOrder db s uid =
          (.error e, { s with dbGetCalls := s.dbGetCalls + 1 }))) := by
  refine ⟨?_, fun hmiss => ⟨?_, ?_⟩⟩
  · intro o hhit
    unfold cacheService.GetOrder
    simp [hhit]
  · intro o hdb
    unfold cacheService.GetOrder
    simp [hmiss, hdb]
  · intro e hdb
    unfold cacheService.GetOrder
    simp [hmiss, hdb]

/-- C3 witness: all three paths evaluated concretely — a hit on a warmed
state, a miss resolved by the store, and a miss whose store access fails. -/
theorem cacheService.getOrder_spec_witness :
    cacheService.GetOrder failDB
        ⟨[(sampleOrder.OrderID, sampleOrder)], 0, 0⟩ sampleOrder.OrderID =
      (.ok sampleOrder, ⟨[(sampleOrder.OrderID, sampleOrder)], 0, 0⟩) ∧
    cacheService.GetOrder memDB initialCacheState sampleOrder.OrderID =
      (.ok sampleOrder, { initialCacheState with
                          dbGetCalls := 1
                          cache := cacheSet sampleOrder.OrderID sampleOrder
                            initialCacheState.cache }) ∧
    cacheService.GetOrder okDB initialCacheState sampleOrder.OrderID =
      (.error .notFound, { initialCacheState with dbGetCalls := 1 }) :=
  ⟨(cacheService.getOrder_spec failDB ⟨[(sampleOrder.OrderID, sampleOrder)], 0, 0⟩
      sampleOrder.OrderID).1 sampleOrder (by decide),
   ((cacheService.getOrder_spec memDB initialCacheState sampleOrder.OrderID).2
      rfl).1 sampleOrder (by decide),
   ((cacheService.getOrder_spec okDB initialCacheState sampleOrder.OrderID).2
      rfl).2 .notFound rfl⟩

/-! ## C4 — all-or-nothing store write -/

theorem stageItems_of_all_ok (f : PgFailures) :
    ∀ (l : List ProductItem) (n : Nat),
      (∀ i, i < l.length → f.failItem (n + i) = false) → stageItems f n l = .ok l := by
  intro l
  induction l with
  | nil => intro n _; rfl
  | cons it rest ih =>
    intro n hall
    have h0 : f.failItem n = false := by
      have := hall 0 (by simp)
      simpa using this
    have hrest : stageItems f (n + 1) rest = .ok rest := by
      refine ih (n + 1) fun i hi => ?_
      have := hall (i + 1) (by simpa using Nat.succ_lt_succ hi)
      simpa [Nat.add_assoc, Nat.add_comm 1 i] using this
    simp [stageItems, h0, hrest, Except.map]

theorem stageItems_error_of_fail (f : PgFailures) :
    ∀ (l : List ProductItem) (n i : Nat), i < l.length → f.failItem (n + i) = true →
      ∃ j, stageItems f n l = .error (.itemErr j) := by
  intro l
  induction l with
  | nil => intro n i hi; exact absurd hi (by simp)
  | cons it rest ih =>
    intro n i hi hfail
    by_cases h0 : f.failItem n = true
    · exact ⟨n, by simp [stageItems, h0]⟩
    · cases i with
      | zero => exact absurd hfail (by simpa using h0)
      | succ i0 =>
        obtain ⟨j, hj⟩ := ih (n + 1) i0 (by simpa using Nat.lt_of_succ_lt_succ hi)
          (by simpa [Nat.add_assoc, Nat.add_comm 1 i0] using hfail)
        refine ⟨j, ?_⟩
        simp [stageItems, h0, hj, Except.map]

/-- C4: `dbService.AddOrder` is all-or-nothing.  It succeeds exactly when
none of its steps (`Begin`, the four kinds of inserts, `Commit`) fails; on
success the store gains precisely the delivery, payment, order-header and
item rows of this order (`commitOrder`); and on any failure the returned
state equals the input state — no partial rows are visible. -/
theorem dbService.addOrder_transactional (f : PgFailures) (st : PgState) (o : OrderDetails) :
    ((dbService.AddOrder f st o).1 = .ok () ↔
      (f.failBegin = false ∧ f.failDelivery = false ∧ f.failPayment = false ∧
       f.failOrder = false ∧ (∀ i, i < o.Products.length → f.failItem i = false) ∧
       f.failCommit = false)) ∧
    ((dbService.AddOrder f st o).1 = .ok () →
      (dbService.AddOrder f st o).2 = commitOrder st o) ∧
    (∀ e, (dbService.AddOrder f st o).1 = .error e → (dbService.AddOrder f st o).2 = st) := by
  by_cases hb : f.failBegin = true
  · refine ⟨?_, ?_, ?_⟩
    · simp [dbService.AddOrder, hb]
    · simp [dbService.AddOrder, hb]
    · intro e _; simp [dbService.AddOrder, hb]
  · by_cases hd : f.failDelivery = true
    · refine ⟨?_, ?_, ?_⟩
      · simp [dbService.AddOrder, hb, hd]
      · simp [dbService.AddOrder, hb, hd]
      · intro e _; simp [dbService.AddOrder, hb, hd]
    · by_cases hp : f.failPayment = true
      · refine ⟨?_, ?_, ?_⟩
        · simp [dbService.AddOrder, hb, hd, hp]
        · simp [dbService.AddOrder, hb, hd, hp]
        · intro e _; simp [dbService.AddOrder, hb, hd, hp]
      · by_cases ho : f.failOrder = true
        · refine ⟨?_, ?_, ?_⟩
          · simp [dbService.AddOrder, hb, hd, hp, ho]
          · simp [dbService.AddOrder, hb, hd, hp, ho]
          · intro e _; simp [dbService.AddOrder, hb, hd, hp, ho]
        · by_cases hi : ∀ i, i < o.Products.length → f.failItem i = false
          · have hstage : stageItems f 0 o.Products = .ok o.Products :=
              stageItems_of_all_ok f o.Products 0 (by simpa using hi)
            by_cases hc : f.failCommit = true
            · refine ⟨?_, ?_, ?_⟩
              · simp [dbService.AddOrder, hb, hd, hp, ho, hstage, hc]
              · simp [dbService.AddOrder, hb, hd, hp, ho, hstage, hc]
              · intro e _; simp [dbService.AddOrder, hb, hd, hp, ho, hstage, hc]
            · refine ⟨?_, ?_, ?_⟩
              · constructor
                · intro _
                  exact ⟨by simpa using hb, by simpa using hd, by simpa using hp,
                    by simpa using ho, hi, by simpa using hc⟩
                · intro _
                  simp [dbService.AddOrder, hb, hd, hp, ho, hstage, hc]
              · intro _; simp [dbService.AddOrder, hb, hd, hp, ho, hstage, hc]
              · intro e he
                exact absurd he (by simp [dbService.AddOrder, hb, hd, hp, ho, hstage, hc])
          · push_neg at hi
            obtain ⟨i, hlt, hfi⟩ := hi
            obtain ⟨j, hj⟩ := stageItems_error_of_fail f o.Products 0 i hlt
              (by simpa using hfi)
            refine ⟨?_, ?_, ?_⟩
            · constructor
              · intro hok
                exact absurd hok (by simp [dbService.AddOrder, hb, hd, hp, ho, hj])
              · rintro ⟨-, -, -, -, hall, -⟩
                exact absurd (hall i hlt) hfi
            · intro hok
              exact absurd hok (by simp [dbService.AddOrder, hb, hd, hp, ho, hj])
            · intro e _; simp [dbService.AddOrder, hb, hd, hp, ho, hj]

/-- C4 witness: a fully failure-free oracle commits the sample order onto
the empty store, and an oracle whose commit fails leaves the store
unchanged. -/
theorem dbService.addOrder_transactional_witness :
    (dbService.AddOrder ⟨false, false, false, false, fun _ => false, false⟩
        ⟨[], [], [], []⟩ sampleOrder).2 = commitOrder ⟨[], [], [], []⟩ sampleOrder ∧
    (dbService.AddOrder ⟨false, false, false, false, fun _ => false, true⟩
        ⟨[], [], [], []⟩ sampleOrder).2 = ⟨[], [], [], []⟩ :=
  ⟨(dbService.addOrder_transactional ⟨false, false, false, false, fun _ => false, false⟩
      ⟨[], [], [], []⟩ sampleOrder).2.1 rfl,
   (dbService.addOrder_transactional ⟨false, false, false, false, fun _ => false, true⟩
      ⟨[], [], [], []⟩ sampleOrder).2.2 .commitErr rfl⟩

/-! ## C9 — warm-up -/

theorem loadCache_fold_mem (db : DBService) :
    ∀ (ids : List String) (s : CacheState) (id : String) (o : OrderDetails),
      db.GetOrder id = .ok o →
      (id ∈ ids ∨ cacheGet id s.cache = some o) →
      cacheGet id (ids.foldl (cacheService.loadCacheStep db) s).cache = some o := by
  intro ids
  induction ids with
  | nil =>
    intro s id o _ hmem
    rcases hmem with hmem | hmem
    · exact absurd hmem (by simp)
    · simpa using hmem
  | cons id0 rest ih =>
    intro s id o hdb hmem
    refine ih (cacheService.loadCacheStep db s id0) id o hdb ?_
    by_cases heq : id = id0
    · subst heq
      right
      unfold cacheService.loadCacheStep
      rw [hdb]
      exact cacheGet_set_self id o s.cache
    · rcases hmem with hmem | hmem
      · rcases List.mem_cons.mp hmem with h0 | h0
        · exact absurd h0 heq
        · exact Or.inl h0
      · right
        unfold cacheService.loadCacheStep
        cases hdb0 : db.GetOrder id0 with
        | error e => simpa using hmem
        | ok o0 => simpa [cacheGet_set_ne id0 id o0 s.cache heq] using hmem

/-- C9: `NewCacheService` warm-up.  A failing id-list fetch (requested
with limit = the cache capacity) fails construction with that error; a
successful id-list fetch always yields a constructed service — individual
order-fetch failures are skipped, never fatal — and, the admissions having
all settled before construction returns, every id of the list whose fetch
succeeded is present in the cache with its fetched order. -/
theorem NewCacheService_warmup_spec (db : DBService) (n : Nat) :
    (∀ e, db.GetRecentOrderIDs n = .error e → NewCacheService db n = .error e) ∧
    (∀ ids, db.GetRecentOrderIDs n = .ok ids →
      NewCacheService db n =
        .ok (ids.foldl (cacheService.loadCacheStep db) initialCacheState) ∧
      ∀ id, id ∈ ids → ∀ o, db.GetOrder id = .ok o →
        cacheGet id (ids.foldl (cacheService.loadCacheStep db) initialCacheState).cache =
          some o) := by
  constructor
  · intro e he
    unfold NewCacheService cacheService.loadCache
    rw [he]
  · intro ids hids
    constructor
    · unfold NewCacheService cacheService.loadCache
      rw [hids]
    · intro id hmem o hdb
      exact loadCache_fold_mem db ids initialCacheState id o hdb (Or.inl hmem)

/-- C9 witness: a store holding the sample order warms the cache during
construction; the constructed state serves the sample id from the cache. -/
theorem NewCacheService_warmup_spec_witness :
    NewCacheService memDB 1024 =
      .ok ([sampleOrder.OrderID].foldl (cacheService.loadCacheStep memDB)
        initialCacheState) ∧
    cacheGet sampleOrder.OrderID
        ([sampleOrder.OrderID].foldl (cacheService.loadCacheStep memDB)
          initialCacheState).cache = some sampleOrder :=
  ⟨((NewCacheService_warmup_spec memDB 1024).2 [sampleOrder.OrderID] rfl).1,
   ((NewCacheService_warmup_spec memDB 1024).2 [sampleOrder.OrderID] rfl).2
      sampleOrder.OrderID (by simp) sampleOrder (by decide)⟩

/-! ## C5 — the stream consumer's decode path -/

/-- C5 counterexample: the consumer decodes with `json.Unmarshal`, not
with `model.ParseOrder`, so a record with more items than the configured
ceiling (here one) decodes successfully, is handed to the store, and is
admitted to the cache — while the Record Codec itself would have rejected
the very same payload with the too-many-items error. -/
theorem kafkaService.consume_ignores_item_ceiling_cex :
    kafkaService.decodeOrder oversizedPayload = .ok oversizedOrder ∧
    oversizedOrder.Products.length = 2 ∧
    ParseOrder oversizedPayload 1 = .error "too many products in the order" ∧
    (kafkaService.consumeStep okDB initialCacheState oversizedPayload).dbAddCalls = 1 ∧
    cacheGet oversizedOrder.OrderID
        (kafkaService.consumeStep okDB initialCacheState oversizedPayload).cache =
      some oversizedOrder :=
  ⟨rfl, rfl, rfl, rfl, rfl⟩

/-- C5 (amended): the consumer-loop body drops a message exactly when the
plain `json.Unmarshal` decode fails; every successfully decoded order —
with no item-count ceiling and no unknown-field check applied — is passed
to `store.AddOrder` (one store write call) and admitted to the cache. -/
theorem kafkaService.consumeStep_spec (db : DBService) (s : CacheState) (msg : Json) :
    (∀ e, kafkaService.decodeOrder msg = .error e →
      kafkaService.consumeStep db s msg = s) ∧
    (∀ o, kafkaService.decodeOrder msg = .ok o →
      (kafkaService.consumeStep db s msg).dbAddCalls = s.dbAddCalls + 1 ∧
      cacheGet o.OrderID (kafkaService.consumeStep db s msg).cache = some o) := by
  constructor
  · intro e he
    unfold kafkaService.consumeStep
    rw [he]
  · intro o ho
    unfold kafkaService.consumeStep
    rw [ho]
    show (cacheService.AddOrder db s o).2.dbAddCalls = s.dbAddCalls + 1 ∧
      cacheGet o.OrderID (cacheService.AddOrder db s o).2.cache = some o
    rw [addOrder_state]
    exact ⟨rfl, cacheGet_set_self o.OrderID o s.cache⟩

/-- C5 (amended) witness: both branches evaluated concretely — a
non-object payload is dropped, and the oversized two-item payload is
persisted and cached. -/
theorem kafkaService.consumeStep_spec_witness :
    kafkaService.consumeStep okDB initialCacheState (.str "garbage") =
      initialCacheState ∧
    (kafkaService.consumeStep okDB initialCacheState oversizedPayload).dbAddCalls = 1 ∧
    cacheGet oversizedOrder.OrderID
        (kafkaService.consumeStep okDB initialCacheState oversizedPayload).cache =
      some oversizedOrder :=
  ⟨(kafkaService.consumeStep_spec okDB initialCacheState (.str "garbage")).1
      "invalid order format in Kafka message" rfl,
   (kafkaService.consumeStep_spec okDB initialCacheState oversizedPayload).2
      oversizedOrder rfl⟩

/-! ## C6 — error reporting of the query surface -/

/-- C6 counterexample: a `notFound` store outcome is answered with
status 500 — not with any 4xx-class status — by `orderHandler`. -/
theorem httpTransport.orderHandler_notFound_cex :
    (httpTransport.orderHandler notFoundStore "GET" "b563feb7b2b84b6test").status = 500 ∧
    ¬(400 ≤ (httpTransport.orderHandler notFoundStore "GET" "b563feb7b2b84b6test").status ∧
      (httpTransport.orderHandler notFoundStore "GET" "b563feb7b2b84b6test").status < 500) :=
  ⟨rfl, by decide⟩

/-- C6 (amended): for a GET request with a non-empty `order_uid`, every
store failure — `notFound` and `storeError` alike, undistinguished — is
answered with status 500, and a found order with status 200 and the
JSON-encoded order; only a missing/empty `order_uid` yields a 4xx (400),
and a non-GET method 405. -/
theorem httpTransport.orderHandler_spec (store : String → Except DBError OrderDetails)
    (uid : String) (h : uid ≠ "") :
    (∀ e, store uid = .error e →
      httpTransport.orderHandler store "GET" uid = ⟨500, none⟩) ∧
    (∀ o, store uid = .ok o →
      httpTransport.orderHandler store "GET" uid = ⟨200, some (marshalOrder o)⟩) ∧
    httpTransport.orderHandler store "GET" "" = ⟨400, none⟩ ∧
    httpTransport.orderHandler store "POST" uid = ⟨405, none⟩ := by
  refine ⟨?_, ?_, ?_, ?_⟩
  · intro e he
    unfold httpTransport.orderHandler
    simp [h, he]
  · intro o ho
    unfold httpTransport.orderHandler
    simp [h, ho]
  · unfold httpTransport.orderHandler
    simp
  · unfold httpTransport.orderHandler
    simp

/-- C6 (amended) witness: the 500 and 200 paths evaluated concretely. -/
theorem httpTransport.orderHandler_spec_witness :
    httpTransport.orderHandler notFoundStore "GET" "b563feb7b2b84b6test" = ⟨500, none⟩ ∧
    httpTransport.orderHandler sampleStore "GET" sampleOrder.OrderID =
      ⟨200, some (marshalOrder sampleOrder)⟩ :=
  ⟨(httpTransport.orderHandler_spec notFoundStore "b563feb7b2b84b6test" (by decide)).1
      .notFound rfl,
   ((httpTransport.orderHandler_spec sampleStore sampleOrder.OrderID (by decide)).2).1
      sampleOrder (by decide)⟩

/-! ## C10 — no content validation beyond structure -/

/-- C10: `ParseOrder` applies no content validation beyond structure: the
well-formed payload `emptyUIDPayload`, which carries no `order_uid` field
at all, decodes successfully to an order with an empty identifier, and
`cacheService.AddOrder` accepts that order, admitting it under the
empty-string key. -/
theorem ParseOrder_no_content_validation :
    ParseOrder emptyUIDPayload 5 = .ok emptyUIDOrder ∧
    emptyUIDOrder.OrderID = "" ∧
    (cacheService.AddOrder okDB initialCacheState emptyUIDOrder).1 = .ok () ∧
    cacheGet "" (cacheService.AddOrder okDB initialCacheState emptyUIDOrder).2.cache =
      some emptyUIDOrder :=
  ⟨rfl, rfl, rfl, rfl⟩

/-! ## RFC3339 round-trip lemmas -/

theorem readDigit_digitChar (k : Nat) : readDigit (digitChar k) = some (k % 10) := by
  have hlt : k % 10 < 10 := Nat.mod_lt _ (by decide)
  have hchar : digitChar k = digitChar (k % 10) := by
    unfold digitChar
    congr 1
    omega
  have hall : ∀ j, j < 10 → readDigit (digitChar j) = some j := by decide
  rw [hchar, hall (k % 10) hlt]

theorem read2_pad2 (n : Nat) (rest : List Char) :
    read2 (pad2 n ++ rest) = some (n % 100, rest) := by
  simp [pad2, read2, readDigit_digitChar]
  omega

theorem read2_pad2_nil (n : Nat) : read2 (pad2 n) = some (n % 100, []) := by
  rw [← List.append_nil (pad2 n), read2_pad2]

theorem read1or2_pad2 (n : Nat) (rest : List Char) :
    read1or2 (pad2 n ++ rest) = some (n % 100, rest) := by
  simp [pad2, read1or2, readDigit_digitChar]
  omega

theorem read4_pad4 (n : Nat) (rest : List Char) :
    read4 (pad4 n ++ rest) = some (n % 10000, rest) := by
  simp [pad4, read4, readDigit_digitChar]
  omega

theorem expectChar_cons (c : Char) (rest : List Char) :
    expectChar c (c :: rest) = some rest := by
  simp [expectChar]

theorem parseFrac_offsetChars (off : Int) :
    parseFrac (offsetChars off) = (0, offsetChars off) := by
  unfold offsetChars
  by_cases h0 : off = 0
  · simp [h0, parseFrac]
  · by_cases hneg : off < 0
    · simp [h0, hneg, pad2, parseFrac]
    · simp [h0, hneg, pad2, parseFrac]

theorem parseOffset_offsetChars (off : Int) (h : off.natAbs ≤ 1439) :
    parseOffset (offsetChars off) = some (off, []) := by
  have hdiv : off.natAbs / 60 % 100 = off.natAbs / 60 := by omega
  have hmod : off.natAbs % 60 % 100 = off.natAbs % 60 := by omega
  unfold offsetChars
  by_cases h0 : off = 0
  · simp [h0, parseOffset]
  · by_cases hneg : off < 0
    · rw [if_neg h0, if_pos hneg]
      show parseOffset ('-' :: (pad2 (off.natAbs / 60) ++ ':' :: pad2 (off.natAbs % 60))) =
        some (off, [])
      rw [parseOffset]
      unfold parseOffsetHM
      simp only [read2_pad2, read2_pad2_nil, expectChar_cons, hdiv, hmod]
      simp only [Option.map, Option.some.injEq, Prod.mk.injEq, and_true]
      omega
    · rw [if_neg h0, if_neg hneg]
      show parseOffset ('+' :: (pad2 (off.natAbs / 60) ++ ':' :: pad2 (off.natAbs % 60))) =
        some (off, [])
      rw [parseOffset]
      unfold parseOffsetHM
      simp only [read2_pad2, read2_pad2_nil, expectChar_cons, hdiv, hmod]
      simp only [Option.map, Option.some.injEq, Prod.mk.injEq, and_true]
      omega

theorem daysInMonth_le (y : Int) (m : Nat) : daysInMonth y m ≤ 31 := by
  unfold daysInMonth
  split
  · split <;> omega
  · split <;> omega

theorem parse_format_time (t : ISO8601Time) (h : t.wellFormed) :
    parseRFC3339 (formatRFC3339 t) = some { t with nsec := 0 } := by
  obtain ⟨hy1, hy2, hm1, hm2, hd1, hd2, hho, hmi, hsec, hoff⟩ := h
  have hyc : yearChars t.year = pad4 t.year.toNat := by
    unfold yearChars
    rw [if_neg (by omega), if_pos (by omega)]
  have hdle : daysInMonth t.year t.month ≤ 31 := daysInMonth_le t.year t.month
  have hy4 : t.year.toNat % 10000 = t.year.toNat := by omega
  have hyInt : Int.ofNat t.year.toNat = t.year := by
    rw [Int.ofNat_eq_coe]
    omega
  have hmo : t.month % 100 = t.month := by omega
  have hdm : t.day % 100 = t.day := by omega
  have hhm : t.hour % 100 = t.hour := by omega
  have hmim : t.minute % 100 = t.minute := by omega
  have hsm : t.second % 100 = t.second := by omega
  show parseRFC3339List (yearChars t.year ++ '-' :: pad2 t.month ++ '-' :: pad2 t.day ++
      'T' :: pad2 t.hour ++ ':' :: pad2 t.minute ++ ':' :: pad2 t.second ++
      offsetChars t.offsetMin) = some { t with nsec := 0 }
  rw [hyc]
  unfold parseRFC3339List
  simp only [List.append_assoc, List.cons_append, read4_pad4, read2_pad2,
    read1or2_pad2, expectChar_cons, parseFrac_offsetChars,
    parseOffset_offsetChars t.offsetMin hoff, hy4, hmo, hdm, hhm, hmim, hsm, hyInt,
    Option.bind_eq_bind, Option.some_bind]
  rw [if_pos ⟨trivial, hm1, hm2, hd1, hd2, hho, hmi, hsec⟩]

theorem decodeItemElem_marshal (strict : Bool) (it : ProductItem) :
    decodeItemElem strict (marshalItem it) = .ok it := rfl

theorem decodeItemList_marshal (strict : Bool) (l : List ProductItem) :
    decodeItemList strict (l.map marshalItem) = .ok l := by
  induction l with
  | nil => rfl
  | cons it rest ih => simp [decodeItemList, decodeItemElem_marshal, ih]

theorem unmarshal_marshal_time (t : ISO8601Time) (h : t.wellFormed) (hn : t.nsec = 0) :
    ISO8601Time.unmarshal (.str (formatRFC3339 t)) = .ok t := by
  unfold ISO8601Time.unmarshal
  show (match parseRFC3339 (formatRFC3339 t) with
    | some t1 => Except.ok t1
    | none => Except.error ("invalid time format: " ++ formatRFC3339 t)) = Except.ok t
  rw [parse_format_time t h]
  obtain ⟨y, mo, d, hh, mi, s, ns, off⟩ := t
  simp only at hn
  subst hn
  rfl

/-! ## C7 — codec round trip -/

/-- C7 counterexample: an order whose creation timestamp carries a
fractional second (as `time.Now()` produces) does not survive the round
trip — `MarshalJSON` renders `time.RFC3339`, which has no
fractional-second field, so decoding the encoding yields the order with
the sub-second part truncated to zero, a different order. -/
theorem codec_roundtrip_cex :
    ParseOrder (marshalOrder fracOrder) 5 =
      .ok { fracOrder with CreationTimestamp := ⟨2021, 11, 26, 6, 22, 19, 0, 0⟩ } ∧
    ParseOrder (marshalOrder fracOrder) 5 ≠ .ok fracOrder :=
  ⟨rfl, by decide⟩

/-- C7 (amended): `decode(encode(o)) = o` holds for every valid order
whose creation timestamp is renderable (four-digit year, calendar-consistent
fields, offset under a day) and carries no fractional second, and whose
item count is within the configured ceiling; encoding truncates sub-second
precision, so orders with a nonzero nanosecond part round-trip to the
truncated timestamp instead. -/
theorem ParseOrder_marshalOrder (o : OrderDetails) (maxItems : Nat)
    (hts : o.CreationTimestamp.wellFormed) (hn : o.CreationTimestamp.nsec = 0)
    (hlen : o.Products.length ≤ maxItems) :
    ParseOrder (marshalOrder o) maxItems = .ok o := by
  have htime := unmarshal_marshal_time o.CreationTimestamp hts hn
  have hitems := decodeItemList_marshal true o.Products
  have hdec : decodeOrderDetails true (marshalOrder o) = .ok o := by
    unfold marshalOrder decodeOrderDetails
    simp [decodeOrderObj, decodeOrderEntry, decodeStringField, decodeIntField,
      marshalAddress, marshalPayment,
      decodeAddressField, decodeAddressObj, decodeAddressEntry,
      decodePaymentField, decodePaymentObj, decodePaymentEntry,
      decodeItemsField, hitems, htime, Except.map]
  unfold ParseOrder
  rw [hdec]
  show (if o.Products.length > maxItems then
      Except.error "too many products in the order" else Except.ok o) = Except.ok o
  rw [if_neg (by omega)]

/-- C7 (amended) witness: the canonical sample order round-trips exactly. -/
theorem ParseOrder_marshalOrder_witness :
    ParseOrder (marshalOrder sampleOrder) 5 = .ok sampleOrder :=
  ParseOrder_marshalOrder sampleOrder 5 (by decide) rfl (by decide)

/-! ## C8 — strict decode: closed schema and strict timestamps -/

end WB
